import Mathlib

/-!
Verification of the SFOWeb scraping core (custom_components/sfoweb).

The Python source is shallowly embedded: BeautifulSoup query results are
modelled as explicit structures (cells, rows, tables, class-tagged
elements, full page text), the aiohttp transport is modelled as explicit
outcome data consumed by the control flow, and Python exceptions are
modelled with Except / Option.  Each definition is a direct translation
of the function of the same name in the source.
-/

namespace SfoWeb

/-- Boolean test that the list pat occurs as a contiguous sublist of l.
Models the Python substring operator (pat in s) on the character level. -/
def subListOf (pat : List Char) : List Char → Bool
  | [] => pat.isPrefixOf []
  | l@(_ :: tl) => pat.isPrefixOf l || subListOf pat tl

/-- Boolean substring test on strings: strContains s pat models (pat in s). -/
def strContains (s pat : String) : Bool :=
  subListOf pat.data s.data

/-- Model of the Python lower() method (character-wise ASCII lowering). -/
def pyLower (s : String) : String :=
  String.mk (s.data.map Char.toLower)

/-- Model of the Python strip() method: drop leading and trailing whitespace. -/
def pyStrip (s : String) : String :=
  String.mk (((s.data.dropWhile Char.isWhitespace).reverse.dropWhile Char.isWhitespace).reverse)

theorem subListOf_iff (pat l : List Char) : subListOf pat l = true ↔ pat <:+: l := by
  induction l with
  | nil =>
    simp [subListOf, List.infix_nil, List.isPrefixOf_iff_prefix, List.prefix_nil]
  | cons a tl ih =>
    simp [subListOf, List.infix_cons_iff, List.isPrefixOf_iff_prefix, ih]

theorem strContains_iff (s pat : String) :
    strContains s pat = true ↔ pat.data <:+: s.data := by
  simp [strContains, subListOf_iff]

/-- Appointment record, with the field names used by the source dictionaries
(date, what, time, comment, full_description).  The spec calls the fields
date, category, time_range, comment and description. -/
structure Appointment where
  date : String
  what : String
  time : String
  comment : String
  full_description : String
deriving DecidableEq, Repr

/-- One table cell; text is the result of cell.get_text() before stripping. -/
structure Cell where
  text : String
deriving DecidableEq, Repr

/-- One table row; cells is the result of row.find_all with td and th. -/
structure Row where
  cells : List Cell
deriving DecidableEq, Repr

/-- One table; rows is the result of table.find_all of tr. -/
structure HtmlTable where
  rows : List Row
deriving DecidableEq, Repr

/-- A non-table element of the document (div, li or span), carrying its tag
name, its class attribute values and its get_text() result.  Used by the
alternative parsing fallbacks. -/
structure Elem where
  tag : String
  classes : List String
  text : String
deriving DecidableEq, Repr

/-- An HTML page as observed through the BeautifulSoup queries the scraper
performs: the full visible text, the tables and the other elements, each
in document order. -/
structure Page where
  text : String
  tables : List HtmlTable
  elements : List Elem
deriving DecidableEq, Repr

/-- Login indicators checked at the top of _parse_appointments_html. -/
def parseLoginIndicators : List String :=
  ["login", "password", "brugernavn", "sign in", "log på"]

/-- Appointment produced by one data row of a table, when the row qualifies:
at least 3 cells, and the stripped texts of cell 0 and cell 1 are non-empty.
Direct translation of the row body of the table loop of
_parse_appointments_html (scraper.py lines 589-609). -/
def rowAppointment (row : Row) : Option Appointment :=
  if row.cells.length ≥ 3 then
    let cellTexts := row.cells.map (fun c => pyStrip c.text)
    let dateText := cellTexts.getD 0 ""
    let whatText := cellTexts.getD 1 ""
    let timeText := cellTexts.getD 2 ""
    let commentText := cellTexts.getD 3 ""
    if dateText ≠ "" ∧ whatText ≠ "" then
      some ⟨dateText, whatText, timeText, commentText, dateText ++ " - " ++ timeText⟩
    else
      none
  else
    none

/-- Appointments produced by the table loop of _parse_appointments_html:
for each table, the first row is skipped and the remaining rows are parsed
with rowAppointment, in document order. -/
def tableAppointments (page : Page) : List Appointment :=
  (page.tables.map (fun t => (t.rows.drop 1).filterMap rowAppointment)).flatten

/-- Truncation idiom text[:50] + "..." used by _parse_alternative_formats. -/
def truncate50 (s : String) : String :=
  if s.length > 50 then String.mk (s.data.take 50) ++ "..." else s

/-- Scan for the regex pattern of one digit, a dot or slash, and one digit,
which is equivalent to the Python search for digits{1,2}[./]digits{1,2}. -/
def hasDateDots : List Char → Bool
  | [] => false
  | _ :: [] => false
  | _ :: _ :: [] => false
  | a :: b :: c :: tl =>
    (a.isDigit && (b = '.' || b = '/') && c.isDigit) || hasDateDots (b :: c :: tl)

/-- Scan for the regex pattern digits{4}-digits{2}-digits{2}. -/
def hasIsoDate : List Char → Bool
  | a :: tl =>
    (match tl with
     | b :: c :: d :: e :: f :: g :: h :: i :: j :: _ =>
       a.isDigit && b.isDigit && c.isDigit && d.isDigit && e = '-' &&
       f.isDigit && g.isDigit && h = '-' && i.isDigit && j.isDigit
     | _ => false) || hasIsoDate tl
  | [] => false

/-- Class-attribute match of a compiled case-insensitive regex alternation,
as BeautifulSoup applies it to each class value of an element. -/
def classMatches (keywords : List String) (e : Elem) : Bool :=
  e.classes.any (fun c => keywords.any (fun k => strContains (pyLower c) k))

/-- Direct translation of _parse_alternative_formats (scraper.py 639-689):
three fallback scans (appointment-like divs, list items with date patterns,
calendar-like divs and spans), first non-empty method wins, capped at 10. -/
def parseAlternativeFormats (page : Page) : List Appointment :=
  let method1 :=
    (page.elements.filter
      (fun e => e.tag = "div" && classMatches ["appointment", "event", "aftale"] e)).filterMap
      (fun e =>
        let text := pyStrip e.text
        if text ≠ "" ∧ text.length > 10 then
          some ⟨"Unknown", truncate50 text, "Unknown", "", text⟩
        else none)
  let method2 :=
    if method1.isEmpty then
      (page.elements.filter (fun e => e.tag = "li")).filterMap
        (fun e =>
          let text := pyStrip e.text
          if hasDateDots text.data || hasIsoDate text.data then
            some ⟨"See description", truncate50 text, "See description", "", text⟩
          else none)
    else []
  let method3 :=
    if method1.isEmpty && method2.isEmpty then
      (page.elements.filter
        (fun e => (e.tag = "div" || e.tag = "span") &&
          classMatches ["calendar", "event", "date"] e)).filterMap
        (fun e =>
          let text := pyStrip e.text
          if text ≠ "" ∧ text.length > 5 then
            some ⟨"Calendar item", truncate50 text, "See description", "", text⟩
          else none)
    else []
  (method1 ++ method2 ++ method3).take 10

/-- Direct translation of _parse_appointments_html (scraper.py 554-637):
if the page text, lower-cased, contains a login indicator the parser
returns the empty list; otherwise the table loop runs, and when it yields
nothing the alternative-format fallbacks run. -/
def parseAppointmentsHtml (page : Page) : List Appointment :=
  if parseLoginIndicators.any (fun ind => strContains (pyLower page.text) ind) then []
  else
    let appts := tableAppointments page
    if appts.isEmpty then parseAlternativeFormats page else appts

/-- Formalisation of claim C1 exactly as stated for one row: every remaining
row with at least 3 cells yields an Appointment, with no further condition
on the cell contents. -/
def claimRowAppointment : Row → Option Appointment
  | ⟨c0 :: c1 :: c2 :: rest⟩ =>
    let d := pyStrip c0.text
    let w := pyStrip c1.text
    let tm := pyStrip c2.text
    let cm := ((rest.head?).map (fun c => pyStrip c.text)).getD ""
    some ⟨d, w, tm, cm, d ++ " - " ++ tm⟩
  | _ => none

/-- Formalisation of claim C1 exactly as stated for a document: one
Appointment per row with at least 3 cells, first row of each table skipped,
in document order. -/
def claimC1Extract (page : Page) : List Appointment :=
  (page.tables.map (fun t => (t.rows.drop 1).filterMap claimRowAppointment)).flatten

/-- Amended per-row mapping: as claim C1, but a row additionally qualifies
only when the stripped date cell and category cell are both non-empty. -/
def amendedRowAppointment : Row → Option Appointment
  | ⟨c0 :: c1 :: c2 :: rest⟩ =>
    let d := pyStrip c0.text
    let w := pyStrip c1.text
    let tm := pyStrip c2.text
    let cm := ((rest.head?).map (fun c => pyStrip c.text)).getD ""
    if d ≠ "" ∧ w ≠ "" then some ⟨d, w, tm, cm, d ++ " - " ++ tm⟩ else none
  | _ => none

/-- Amended document-level extraction for claim C1. -/
def claimC1AmendedExtract (page : Page) : List Appointment :=
  (page.tables.map (fun t => (t.rows.drop 1).filterMap amendedRowAppointment)).flatten

theorem rowAppointment_eq_amended (row : Row) :
    rowAppointment row = amendedRowAppointment row := by
  obtain ⟨cells⟩ := row
  match cells with
  | [] => rfl
  | [c0] => rfl
  | [c0, c1] => rfl
  | c0 :: c1 :: c2 :: rest =>
    cases rest with
    | nil => simp [rowAppointment, amendedRowAppointment]
    | cons c3 rest => simp [rowAppointment, amendedRowAppointment]

theorem tableAppointments_eq_amended (page : Page) :
    tableAppointments page = claimC1AmendedExtract page := by
  have h : rowAppointment = amendedRowAppointment := funext rowAppointment_eq_amended
  unfold tableAppointments claimC1AmendedExtract
  rw [h]

theorem parse_no_login (page : Page)
    (hlogin : ∀ ind ∈ parseLoginIndicators, strContains (pyLower page.text) ind = false) :
    parseAppointmentsHtml page =
      (if (tableAppointments page).isEmpty then parseAlternativeFormats page
       else tableAppointments page) := by
  have hany : parseLoginIndicators.any (fun ind => strContains (pyLower page.text) ind) = false := by
    rw [List.any_eq_false]
    intro ind hind
    simp [hlogin ind hind]
  simp [parseAppointmentsHtml, hany]

/-- C1: the extractor skips the first row of each table and maps each further
row with at least 3 cells to an Appointment, but only when the stripped date
and category cells are both non-empty, and only when the page text carries no
login indicator; any other qualifying rows are returned in document order
with description equal to date ++ " - " ++ time_range. -/
theorem claim_C1_amended (page : Page)
    (hlogin : ∀ ind ∈ parseLoginIndicators, strContains (pyLower page.text) ind = false)
    (hne : tableAppointments page ≠ []) :
    parseAppointmentsHtml page = claimC1AmendedExtract page := by
  have hemp : (tableAppointments page).isEmpty = false := by
    cases h : tableAppointments page with
    | nil => exact absurd h hne
    | cons a l => rfl
  rw [parse_no_login page hlogin, hemp]
  simp [tableAppointments_eq_amended]

/-- C1 fails as stated: on a page whose sole data row has 3 cells but an
empty date cell, the code returns no Appointment while the claim demands
exactly one. -/
def c1CexPage : Page :=
  ⟨"Aftaler oversigt",
   [⟨[⟨[⟨"Dato"⟩, ⟨"Hvad"⟩, ⟨"Tid"⟩]⟩, ⟨[⟨""⟩, ⟨"B"⟩, ⟨"C"⟩]⟩]⟩], []⟩

/-- C1 counterexample: the code yields [] on c1CexPage although the claim,
as stated, yields one Appointment for its 3-cell data row. -/
theorem claim_C1_counterexample :
    parseAppointmentsHtml c1CexPage = [] ∧
    claimC1Extract c1CexPage = [⟨"", "B", "C", "", " - C"⟩] := by
  constructor <;> rfl

def c1WitnessPage : Page :=
  ⟨"Aftaler oversigt",
   [⟨[⟨[⟨"Dato"⟩, ⟨"Hvad"⟩, ⟨"Tid"⟩, ⟨"Kommentar"⟩]⟩,
      ⟨[⟨" 2025-06-12 "⟩, ⟨"Selvbestemmer"⟩, ⟨"14:00-16:00"⟩, ⟨"Note"⟩]⟩]⟩], []⟩

/-- Witness instantiating claim_C1_amended on a concrete page. -/
theorem claim_C1_witness :
    parseAppointmentsHtml c1WitnessPage = claimC1AmendedExtract c1WitnessPage :=
  claim_C1_amended c1WitnessPage (by decide) (by decide)

/-- Modelled from the spec: the configured marker substring used by the
relevance filter (the booking category of interest, Selvbestemmer).  The
code in scraper.py mentions it only in a comment and applies no filter. -/
def markerSubstring : String := "Selvbestemmer"

/-- C2 amended: no category filter is applied; every parsed data row with at
least 3 cells and non-empty stripped date and category cells yields its
Appointment in the output even when the category does not contain the
configured marker substring. -/
theorem claim_C2_amended (page : Page) (t : HtmlTable) (row : Row) (a : Appointment)
    (hlogin : ∀ ind ∈ parseLoginIndicators, strContains (pyLower page.text) ind = false)
    (ht : t ∈ page.tables) (hr : row ∈ t.rows.drop 1)
    (hrow : rowAppointment row = some a)
    (_hmarker : strContains a.what markerSubstring = false) :
    a ∈ parseAppointmentsHtml page := by
  have hmem : a ∈ tableAppointments page := by
    unfold tableAppointments
    rw [List.mem_flatten]
    exact ⟨(t.rows.drop 1).filterMap rowAppointment,
           List.mem_map_of_mem _ ht,
           List.mem_filterMap.mpr ⟨row, hr, hrow⟩⟩
  have hemp : (tableAppointments page).isEmpty = false := by
    cases h : tableAppointments page with
    | nil => rw [h] at hmem; exact absurd hmem (List.not_mem_nil a)
    | cons x l => rfl
  rw [parse_no_login page hlogin, hemp]
  exact hmem

def c2CexPage : Page :=
  ⟨"oversigt",
   [⟨[⟨[⟨"Dato"⟩, ⟨"Hvad"⟩, ⟨"Tid"⟩, ⟨"Kommentar"⟩]⟩,
      ⟨[⟨"2025-06-12"⟩, ⟨"Andet"⟩, ⟨"14:00-16:00"⟩, ⟨"Note"⟩]⟩]⟩], []⟩

/-- C2 counterexample: a parsed row whose category cell (Andet) does not
contain the marker substring still yields an Appointment. -/
theorem claim_C2_counterexample :
    parseAppointmentsHtml c2CexPage =
      [⟨"2025-06-12", "Andet", "14:00-16:00", "Note", "2025-06-12 - 14:00-16:00"⟩] ∧
    strContains "Andet" markerSubstring = false := by
  constructor <;> rfl

/-- Witness instantiating claim_C2_amended on a concrete page and row. -/
theorem claim_C2_witness :
    (⟨"2025-06-12", "Andet", "14:00-16:00", "Note",
      "2025-06-12 - 14:00-16:00"⟩ : Appointment) ∈ parseAppointmentsHtml c2CexPage :=
  claim_C2_amended c2CexPage
    ⟨[⟨[⟨"Dato"⟩, ⟨"Hvad"⟩, ⟨"Tid"⟩, ⟨"Kommentar"⟩]⟩,
      ⟨[⟨"2025-06-12"⟩, ⟨"Andet"⟩, ⟨"14:00-16:00"⟩, ⟨"Note"⟩]⟩]⟩
    ⟨[⟨"2025-06-12"⟩, ⟨"Andet"⟩, ⟨"14:00-16:00"⟩, ⟨"Note"⟩]⟩
    ⟨"2025-06-12", "Andet", "14:00-16:00", "Note", "2025-06-12 - 14:00-16:00"⟩
    (by decide) (by decide) (by decide) (by decide) (by decide)

/-- Modelled from the spec: the configured phrase shown by the portal when no
appointments are active.  The code in scraper.py has no such constant and
performs no phrase-specific check. -/
def noActiveItemsPhrase : String := "Der er ingen aktive aftaler"

/-- C6 amended: when the sole data row renders the no-active-items phrase in
fewer than 3 cells (the single spanning cell the portal uses), and the page
has no login indicators and no alternative-format elements, extraction
returns the empty list; the code reaches this through the cell-count test,
not through any phrase check. -/
theorem claim_C6_amended (page : Page) (hdr r : Row)
    (hlogin : ∀ ind ∈ parseLoginIndicators, strContains (pyLower page.text) ind = false)
    (htab : page.tables = [⟨[hdr, r]⟩])
    (hcells : r.cells.length < 3)
    (_hphrase : r.cells.any (fun c => strContains c.text noActiveItemsPhrase) = true)
    (helems : page.elements = []) :
    parseAppointmentsHtml page = [] := by
  have hrow : rowAppointment r = none := by
    unfold rowAppointment
    rw [if_neg (by omega : ¬ r.cells.length ≥ 3)]
  have htap : tableAppointments page = [] := by
    unfold tableAppointments
    rw [htab]
    simp [hrow]
  have halt : parseAlternativeFormats page = [] := by
    unfold parseAlternativeFormats
    rw [helems]
    rfl
  rw [parse_no_login page hlogin, htap, halt]
  rfl

def c6CexPage : Page :=
  ⟨"oversigt",
   [⟨[⟨[⟨"Dato"⟩, ⟨"Hvad"⟩, ⟨"Tid"⟩]⟩,
      ⟨[⟨"Der er ingen aktive aftaler"⟩, ⟨"x"⟩, ⟨"y"⟩]⟩]⟩], []⟩

/-- C6 counterexample: a sole data row containing the no-active-items phrase
but rendered in 3 cells is parsed into an Appointment, so extraction does
not return the empty list the claim demands. -/
theorem claim_C6_counterexample :
    strContains "Der er ingen aktive aftaler" noActiveItemsPhrase = true ∧
    parseAppointmentsHtml c6CexPage ≠ [] := by
  constructor
  · rfl
  · decide

def c6WitnessPage : Page :=
  ⟨"Aftale oversigt",
   [⟨[⟨[⟨"Dato"⟩, ⟨"Hvad"⟩, ⟨"Tid"⟩]⟩,
      ⟨[⟨"Der er ingen aktive aftaler"⟩]⟩]⟩], []⟩

/-- Witness instantiating claim_C6_amended on a concrete page whose sole
data row is the single-cell no-active-items message. -/
theorem claim_C6_witness : parseAppointmentsHtml c6WitnessPage = [] :=
  claim_C6_amended c6WitnessPage
    ⟨[⟨"Dato"⟩, ⟨"Hvad"⟩, ⟨"Tid"⟩]⟩
    ⟨[⟨"Der er ingen aktive aftaler"⟩]⟩
    (by decide) rfl (by decide) (by decide) rfl

/-- C10: whenever the lower-cased page text contains one of the login
indicators, the HTML appointment parser returns the empty list, whatever
tables the page carries. -/
theorem claim_C10_login_guard (page : Page)
    (h : ∃ ind ∈ parseLoginIndicators, strContains (pyLower page.text) ind = true) :
    parseAppointmentsHtml page = [] := by
  have hany : parseLoginIndicators.any (fun ind => strContains (pyLower page.text) ind) = true :=
    List.any_eq_true.mpr h
  unfold parseAppointmentsHtml
  rw [hany]
  rfl

def c10WitnessPage : Page :=
  ⟨"Velkommen - LOGIN siden",
   [⟨[⟨[⟨"Dato"⟩, ⟨"Hvad"⟩, ⟨"Tid"⟩]⟩,
      ⟨[⟨"2025-06-12"⟩, ⟨"Selvbestemmer"⟩, ⟨"14:00"⟩]⟩]⟩], []⟩

/-- Witness instantiating claim_C10_login_guard on a page whose table would
otherwise parse into one Appointment. -/
theorem claim_C10_witness :
    parseAppointmentsHtml c10WitnessPage = [] ∧ tableAppointments c10WitnessPage ≠ [] :=
  ⟨claim_C10_login_guard c10WitnessPage ⟨"login", by decide, by decide⟩, by decide⟩

/-- Success indicators configured in _verify_authentication (scraper.py
483-492). -/
def successIndicators : List String :=
  ["appointment", "aftale", "tabel", "kalender", "logout", "logud", "dashboard", "schedule"]

/-- Login-page indicators configured in _verify_authentication
(scraper.py 501). -/
def verifyLoginIndicators : List String :=
  ["login", "password", "brugernavn", "sign in"]

/-- Direct translation of the per-response-text classification inside
_verify_authentication (scraper.py 480-506): authenticated when some success
indicator occurs in the lower-cased text, or when no login indicator occurs
and the text is longer than 1000 characters.  No negative-indicator set
exists in this function. -/
def verifyAuthText (html : String) : Bool :=
  let htmlLower := pyLower html
  if successIndicators.any (fun ind => strContains htmlLower ind) then true
  else if verifyLoginIndicators.any (fun ind => strContains htmlLower ind) = false ∧
          html.length > 1000 then true
  else false

/-- Error indicators configured in _check_auth_success (test_standalone.py
328-331); this is the negative-indicator set the claim describes, which the
component scraper never consults. -/
def errorIndicators : List String :=
  ["invalid", "ugyldig", "forkert", "wrong", "error", "fejl",
   "login failed", "unauthorized", "forbidden"]

/-- Formalisation of claim C3 exactly as stated: authenticated iff a positive
indicator occurs and no negative indicator occurs, or no login-form indicator
occurs and the body exceeds the length threshold. -/
def claimC3Authenticated (html : String) : Bool :=
  let htmlLower := pyLower html
  (successIndicators.any (fun ind => strContains htmlLower ind) &&
    !(errorIndicators.any (fun ind => strContains htmlLower ind))) ||
  (!(verifyLoginIndicators.any (fun ind => strContains htmlLower ind)) &&
    decide (html.length > 1000))

/-- C3 counterexample: a response text containing the positive indicator
logout together with the negative indicator invalid is classified as
authenticated by the code, while the claim, as stated, classifies it as not
authenticated. -/
theorem claim_C3_counterexample :
    verifyAuthText "logout invalid" = true ∧
    claimC3Authenticated "logout invalid" = false := by
  constructor <;> rfl

/-- C3 amended: the success judgment of the component classifies a response
text as authenticated exactly when the lower-cased text contains at least
one configured positive indicator (negative indicators are not consulted),
or no login-form indicator is present and the body length exceeds 1000. -/
theorem claim_C3_amended (s : String) :
    verifyAuthText s = true ↔
      (∃ ind ∈ successIndicators, strContains (pyLower s) ind = true) ∨
      ((∀ ind ∈ verifyLoginIndicators, strContains (pyLower s) ind = false) ∧
        1000 < s.length) := by
  unfold verifyAuthText
  dsimp only
  split_ifs with h1 h2
  · simp only [true_iff]
    exact Or.inl (List.any_eq_true.mp h1)
  · simp only [true_iff]
    refine Or.inr ⟨?_, h2.2⟩
    intro ind hind
    have hall := List.any_eq_false.mp h2.1
    simpa using hall ind hind
  · simp only [false_iff]
    rintro (⟨ind, hind, hc⟩ | ⟨hall, hlen⟩)
    · exact h1 (List.any_eq_true.mpr ⟨ind, hind, hc⟩)
    · refine h2 ⟨List.any_eq_false.mpr ?_, hlen⟩
      intro x hx
      simp [hall x hx]

/-- The four authentication flows tried by _attempt_authentication_flow, in
source order.  The first two submit discovered login forms, the third is the
AJAX/API strategy, the fourth the OAuth/SSO probing strategy. -/
inductive AuthStrategy
  | detectSfo
  | standardForm
  | ajaxAuth
  | oauthFlow
deriving DecidableEq, Repr

/-- Kind of a strategy for the priority-order statement: 0 for the two
form-based flows, 1 for AJAX/API, 2 for OAuth/SSO. -/
def strategyKind : AuthStrategy → Nat
  | .detectSfo => 0
  | .standardForm => 0
  | .ajaxAuth => 1
  | .oauthFlow => 2

/-- A fault raised by a step (network error, timeout, malformed data),
modelling a Python exception via Except. -/
inductive Fault
  | transport
  | timeout
  | malformed
deriving DecidableEq, Repr

/-- One transport behaviour as visible to async_get_appointments: the
outcome each authentication flow produces against this portal (success,
failure, or a raised fault; the internal requests of a flow are abstracted
behind its outcome), and the outcome of _fetch_appointments_data. -/
structure Behaviour where
  flowResult : AuthStrategy → Except Fault Bool
  fetchData : Except Fault (List Appointment)

/-- The fixed flow order of _attempt_authentication_flow (scraper.py 80-99). -/
def strategyOrder : List AuthStrategy :=
  [.detectSfo, .standardForm, .ajaxAuth, .oauthFlow]

/-- Direct translation of _attempt_authentication_flow (scraper.py 80-99):
four chained early-return ifs over the flows. -/
def attemptAuthenticationFlow (b : Behaviour) : Except Fault Bool := do
  if (← b.flowResult .detectSfo) then return true
  if (← b.flowResult .standardForm) then return true
  if (← b.flowResult .ajaxAuth) then return true
  if (← b.flowResult .oauthFlow) then return true
  return false

/-- Instrumented run of a flow list: same chaining as
attemptAuthenticationFlow, additionally recording which flows were
attempted, in order. -/
def runStrategies (f : AuthStrategy → Except Fault Bool) :
    List AuthStrategy → Except Fault Bool × List AuthStrategy
  | [] => (.ok false, [])
  | s :: rest =>
    match f s with
    | .error e => (.error e, [s])
    | .ok true => (.ok true, [s])
    | .ok false =>
      let p := runStrategies f rest
      (p.1, s :: p.2)

/-- The flows attempted by one call of _attempt_authentication_flow. -/
def attemptedFlows (b : Behaviour) : List AuthStrategy :=
  (runStrategies b.flowResult strategyOrder).2

theorem attempt_eq_runStrategies (b : Behaviour) :
    attemptAuthenticationFlow b = (runStrategies b.flowResult strategyOrder).1 := by
  unfold attemptAuthenticationFlow strategyOrder
  cases h1 : b.flowResult .detectSfo with
  | error e => simp [h1, runStrategies, Bind.bind, Except.bind, pure, Except.pure]
  | ok v1 =>
    cases v1
    case true => simp [h1, runStrategies, Bind.bind, Except.bind, pure, Except.pure]
    case false =>
      cases h2 : b.flowResult .standardForm with
      | error e => simp [h1, h2, runStrategies, Bind.bind, Except.bind, pure, Except.pure]
      | ok v2 =>
        cases v2
        case true => simp [h1, h2, runStrategies, Bind.bind, Except.bind, pure, Except.pure]
        case false =>
          cases h3 : b.flowResult .ajaxAuth with
          | error e => simp [h1, h2, h3, runStrategies, Bind.bind, Except.bind, pure, Except.pure]
          | ok v3 =>
            cases v3
            case true => simp [h1, h2, h3, runStrategies, Bind.bind, Except.bind, pure, Except.pure]
            case false =>
              cases h4 : b.flowResult .oauthFlow with
              | error e => simp [h1, h2, h3, h4, runStrategies, Bind.bind, Except.bind, pure, Except.pure]
              | ok v4 => cases v4 <;> simp [h1, h2, h3, h4, runStrategies, Bind.bind, Except.bind, pure, Except.pure]

theorem runStrategies_trace_isPrefix (f : AuthStrategy → Except Fault Bool)
    (l : List AuthStrategy) : (runStrategies f l).2 <+: l := by
  induction l with
  | nil => simp [runStrategies]
  | cons s rest ih =>
    unfold runStrategies
    cases hf : f s with
    | error e => exact ⟨rest, rfl⟩
    | ok v =>
      cases v
      case true => exact ⟨rest, rfl⟩
      case false =>
        obtain ⟨t, ht⟩ := ih
        exact ⟨t, by simpa using ht⟩

theorem runStrategies_dropLast_failed (f : AuthStrategy → Except Fault Bool)
    (l : List AuthStrategy) :
    ∀ s ∈ (runStrategies f l).2.dropLast, f s = .ok false := by
  induction l with
  | nil => simp [runStrategies]
  | cons s rest ih =>
    unfold runStrategies
    cases hf : f s with
    | error e => simp
    | ok v =>
      cases v
      case true => simp
      case false =>
        cases hrec : runStrategies f rest with
        | mk r tr =>
          rw [hrec] at ih
          cases tr with
          | nil => simp
          | cons t ts =>
            intro x hx
            rw [List.dropLast_cons₂] at hx
            rcases List.mem_cons.mp hx with h | h
            · rw [h]; exact hf
            · exact ih x h

theorem runStrategies_ok_iff (f : AuthStrategy → Except Fault Bool)
    (l : List AuthStrategy) :
    (runStrategies f l).1 = .ok true ↔
      ∃ s ∈ (runStrategies f l).2, f s = .ok true := by
  induction l with
  | nil => simp [runStrategies]
  | cons s rest ih =>
    unfold runStrategies
    cases hf : f s with
    | error e => simp [hf]
    | ok v =>
      cases v
      case true => simp [hf]
      case false =>
        cases hrec : runStrategies f rest with
        | mk r tr =>
          rw [hrec] at ih
          simp only
          rw [ih]
          constructor
          · rintro ⟨x, hx, hfx⟩
            exact ⟨x, List.mem_cons_of_mem s hx, hfx⟩
          · rintro ⟨x, hx, hfx⟩
            rcases List.mem_cons.mp hx with h | h
            · rw [h] at hfx; rw [hf] at hfx; cases hfx
            · exact ⟨x, h, hfx⟩

/-- C4: the authenticator tries the flows in the fixed source order (the two
form-based flows first, then AJAX/API, then OAuth/SSO), attempts no flow
more than once per call, every attempted flow before the stopping point
reported failure, and the call reports success exactly when some attempted
flow succeeded. -/
theorem claim_C4_strategy_order (b : Behaviour) :
    attemptedFlows b <+: strategyOrder ∧
    (attemptedFlows b).Nodup ∧
    ((attemptedFlows b).map strategyKind).Sorted (· ≤ ·) ∧
    (∀ s ∈ (attemptedFlows b).dropLast, b.flowResult s = .ok false) ∧
    (attemptAuthenticationFlow b = .ok true ↔
      ∃ s ∈ attemptedFlows b, b.flowResult s = .ok true) := by
  have hpre : attemptedFlows b <+: strategyOrder :=
    runStrategies_trace_isPrefix b.flowResult strategyOrder
  have hsub := hpre.sublist
  refine ⟨hpre, ?_, ?_, ?_, ?_⟩
  · exact (by decide : strategyOrder.Nodup).sublist hsub
  · exact List.Pairwise.sublist (hsub.map strategyKind)
      (by decide : (strategyOrder.map strategyKind).Sorted (· ≤ ·))
  · exact runStrategies_dropLast_failed b.flowResult strategyOrder
  · rw [attempt_eq_runStrategies]
    exact runStrategies_ok_iff b.flowResult strategyOrder

/-- Inner body of async_get_appointments (scraper.py 56-74): run the
authentication flow; on success fetch the appointment data, otherwise
return the empty list.  A fault at any step escapes as Except error. -/
def innerGetAppointments (b : Behaviour) : Except Fault (List Appointment) := do
  let ok ← attemptAuthenticationFlow b
  if ok then b.fetchData else return []

/-- Direct translation of async_get_appointments (scraper.py 30-78): the
inner flow wrapped in the catch-all except that converts any fault into the
initial empty appointment list. -/
def asyncGetAppointments (b : Behaviour) : List Appointment :=
  match innerGetAppointments b with
  | .ok l => l
  | .error _ => []

/-- C5: async_get_appointments always returns a plain list and converts any
fault raised during authentication or extraction into the empty list; the
return type of asyncGetAppointments carries the never-propagates part. -/
theorem claim_C5_fault_containment (b : Behaviour) (f : Fault)
    (h : innerGetAppointments b = .error f) : asyncGetAppointments b = [] := by
  unfold asyncGetAppointments
  rw [h]

def c5FaultBehaviour : Behaviour :=
  ⟨fun _ => .error .transport, .ok []⟩

/-- Witness instantiating claim_C5_fault_containment on a behaviour whose
very first authentication step raises. -/
theorem claim_C5_witness : asyncGetAppointments c5FaultBehaviour = [] :=
  claim_C5_fault_containment c5FaultBehaviour .transport rfl

/-- The scraper object state: credentials plus the session attribute, which
async_get_appointments never writes (each call builds its own cookie jar and
session locally). -/
structure ScraperState where
  username : String
  password : String
  session : Option Unit
deriving DecidableEq, Repr

/-- Call of async_get_appointments seen as a state transformer on the
scraper object: the result depends only on the transport behaviour and the
object is returned unchanged. -/
def asyncGetAppointmentsCall (st : ScraperState) (b : Behaviour) :
    List Appointment × ScraperState :=
  (asyncGetAppointments b, st)

/-- C9: two consecutive calls against unchanged portal content (the same
behaviour) return equal appointment lists, and in particular equal
multisets; the state left by the first call cannot influence the second. -/
theorem claim_C9_idempotent (st : ScraperState) (b : Behaviour) :
    (asyncGetAppointmentsCall (asyncGetAppointmentsCall st b).2 b).1 =
      (asyncGetAppointmentsCall st b).1 ∧
    Multiset.ofList (asyncGetAppointmentsCall (asyncGetAppointmentsCall st b).2 b).1 =
      Multiset.ofList (asyncGetAppointmentsCall st b).1 :=
  ⟨rfl, rfl⟩

/-- Direct translation of async_test_credentials (scraper.py 691-716):
syntactic checks, then a single GET of the login URL as the only network
interaction; a raised fault yields false, any response yields true (status
200 via the early return, any other status via the final return). -/
def asyncTestCredentials (username password : String) (probe : Except Fault Nat) : Bool :=
  if username = "" ∨ password = "" then false
  else if username.length < 3 ∨ password.length < 3 then false
  else
    match probe with
    | .error _ => false
    | .ok status => if status = 200 then true else true

/-- C8: credential validation returns false when either field is empty or
shorter than 3 characters, and returns true for syntactically valid
credentials whenever the single reachability probe of the login URL does
not raise; no login is attempted (the probe is the only transport use). -/
theorem claim_C8_validate (u p : String) (r : Except Fault Nat) :
    ((u = "" ∨ p = "" ∨ u.length < 3 ∨ p.length < 3) →
      asyncTestCredentials u p r = false) ∧
    (3 ≤ u.length → 3 ≤ p.length → (∃ s, r = .ok s) →
      asyncTestCredentials u p r = true) := by
  constructor
  · rintro (h | h | h | h)
    · simp [asyncTestCredentials, h]
    · simp [asyncTestCredentials, h]
    · by_cases h1 : u = "" ∨ p = "" <;> simp [asyncTestCredentials, h1, h]
    · by_cases h1 : u = "" ∨ p = "" <;> simp [asyncTestCredentials, h1, h]
  · rintro hu hp ⟨s, rfl⟩
    have h1 : ¬(u = "" ∨ p = "") := by
      rintro (rfl | rfl)
      · exact absurd hu (by decide)
      · exact absurd hp (by decide)
    have h2 : ¬(u.length < 3 ∨ p.length < 3) := by omega
    simp [asyncTestCredentials, h1, h2]

/-- Witness instantiating claim_C8_validate on the three credential pairs
named by the spec. -/
theorem claim_C8_witness :
    asyncTestCredentials "" "x" (.ok 200) = false ∧
    asyncTestCredentials "ab" "abcd" (.ok 200) = false ∧
    asyncTestCredentials "user1" "pass1" (.ok 200) = true :=
  ⟨(claim_C8_validate "" "x" (.ok 200)).1 (Or.inl rfl),
   (claim_C8_validate "ab" "abcd" (.ok 200)).1 (Or.inr (Or.inr (Or.inl (by decide)))),
   (claim_C8_validate "user1" "pass1" (.ok 200)).2 (by decide) (by decide) ⟨200, rfl⟩⟩

/-- One HTML input element, carrying exactly the attributes the scraper
reads: type, name, id and value (none when the attribute is absent). -/
structure FormInput where
  typeAttr : Option String
  nameAttr : Option String
  idAttr : Option String
  valueAttr : Option String
deriving DecidableEq, Repr

/-- One HTML form: the action attribute (empty string when absent, matching
form.get of the source) and its input elements in document order. -/
structure HtmlForm where
  action : String
  inputs : List FormInput
deriving DecidableEq, Repr

/-- Boolean prefix test modelling the Python startswith method. -/
def strStartsWith (s pat : String) : Bool :=
  pat.data.isPrefixOf s.data

/-- Python attribute truthiness: present and non-empty. -/
def truthyAttr : Option String → Bool
  | none => false
  | some s => decide (s ≠ "")

/-- Case-insensitive containment of a keyword in the name attribute, as the
compiled re.I patterns of the source match it. -/
def inputNameContains (kw : String) (i : FormInput) : Bool :=
  match i.nameAttr with
  | some n => strContains (pyLower n) kw
  | none => false

/-- Case-insensitive containment of a keyword in the id attribute. -/
def inputIdContains (kw : String) (i : FormInput) : Bool :=
  match i.idAttr with
  | some n => strContains (pyLower n) kw
  | none => false

/-- Direct translation of the username-field search of _submit_login_form
(scraper.py 421-434): five patterns tried in order, first match wins. -/
def findUsernameField (form : HtmlForm) : Option FormInput :=
  (form.inputs.find? (inputNameContains "user")).orElse fun _ =>
  (form.inputs.find? (inputNameContains "email")).orElse fun _ =>
  (form.inputs.find? (inputNameContains "login")).orElse fun _ =>
  (form.inputs.find? (fun i => i.nameAttr = some "username")).orElse fun _ =>
  form.inputs.find? (inputIdContains "user")

/-- First input of type password (scraper.py 440). -/
def findPasswordField (form : HtmlForm) : Option FormInput :=
  form.inputs.find? (fun i => i.typeAttr = some "password")

/-- First submit-typed input having a truthy name and a truthy value, the
only one the loop of scraper.py 445-449 adds before breaking. -/
def submitPair (form : HtmlForm) : Option (String × String) :=
  match (form.inputs.filter (fun i => i.typeAttr = some "submit")).find?
      (fun i => truthyAttr i.nameAttr && truthyAttr i.valueAttr) with
  | some i => some (i.nameAttr.getD "", i.valueAttr.getD "")
  | none => none

/-- Translation of _has_login_fields (scraper.py 395-400) applied to one
form: at least one input whose name matches the user, email or login
pattern, and at least one password-typed input. -/
def loginCapable (form : HtmlForm) : Bool :=
  (form.inputs.any (fun i =>
    inputNameContains "user" i || inputNameContains "email" i ||
    inputNameContains "login" i)) &&
  (form.inputs.any (fun i => i.typeAttr = some "password"))

/-- Resolution of the form action (scraper.py 405-409): empty action falls
back to the page URL, a relative action is joined against the page URL by
the library urljoin function, abstracted here as the parameter join. -/
def resolveAction (join : String → String → String) (form : HtmlForm)
    (formUrl : String) : String :=
  if form.action = "" then formUrl
  else if strStartsWith form.action "http" = false then join formUrl form.action
  else form.action

/-- A Python dict of form fields, modelled as a finite map by function. -/
def dset (d : String → Option String) (k v : String) : String → Option String :=
  fun q => if q = k then some v else d q

/-- The empty form-data dict. -/
def emptyFormData : String → Option String := fun _ => none

/-- One iteration of the hidden-field loop of _submit_login_form
(scraper.py 415-419): a hidden input with a truthy name stores its value
(default empty) under its name. -/
def hiddenStep (acc : String → Option String) (i : FormInput) :
    String → Option String :=
  match i.nameAttr with
  | some n => if n ≠ "" then dset acc n (i.valueAttr.getD "") else acc
  | none => acc

/-- The hidden-typed inputs of a form, in document order. -/
def hiddenInputs (form : HtmlForm) : List FormInput :=
  form.inputs.filter (fun i => i.typeAttr = some "hidden")

/-- The name-value pairs contributed by a list of hidden inputs. -/
def inputPairs (l : List FormInput) : List (String × String) :=
  l.filterMap (fun i =>
    match i.nameAttr with
    | some n => if n ≠ "" then some (n, i.valueAttr.getD "") else none
    | none => none)

/-- Direct translation of the body construction of _submit_login_form
(scraper.py 411-449): hidden fields, then the username credential, then the
password credential, then the first usable submit button.  A username or
password field that exists but has no name attribute raises a KeyError in
the source, modelled by none. -/
def buildFormData (form : HtmlForm) (username password : String) :
    Option (String → Option String) :=
  let d0 := (hiddenInputs form).foldl hiddenStep emptyFormData
  let step1 :=
    match findUsernameField form with
    | some i =>
      match i.nameAttr with
      | some n => some (dset d0 n username)
      | none => none
    | none => some d0
  match step1 with
  | none => none
  | some d1 =>
    let step2 :=
      match findPasswordField form with
      | some i =>
        match i.nameAttr with
        | some n => some (dset d1 n password)
        | none => none
      | none => some d1
    match step2 with
    | none => none
    | some d2 =>
      some (match submitPair form with
            | some sp => dset d2 sp.1 sp.2
            | none => d2)

/-- Direct translation of _submit_login_form (scraper.py 402-463) up to the
POST: the resolved action URL and the submitted body; none when the body
construction raised. -/
def submitLoginForm (join : String → String → String) (form : HtmlForm)
    (formUrl username password : String) :
    Option (String × (String → Option String)) :=
  match buildFormData form username password with
  | some data => some (resolveAction join form formUrl, data)
  | none => none

/-- Claim-shaped description of the submitted body: the hidden fields,
overridden by the username credential, overridden by the password
credential, overridden by the submit pair; the hidden contribution of a key
is the value of the last hidden input carrying that name. -/
def expectedLookup (form : HtmlForm) (u p k : String) : Option String :=
  let hid := (inputPairs (hiddenInputs form)).reverse.lookup k
  let afterU :=
    match (findUsernameField form).bind (fun i => i.nameAttr) with
    | some n => if k = n then some u else hid
    | none => hid
  let afterP :=
    match (findPasswordField form).bind (fun i => i.nameAttr) with
    | some n => if k = n then some p else afterU
    | none => afterU
  match submitPair form with
  | some sp => if k = sp.1 then some sp.2 else afterP
  | none => afterP

theorem lookupAppend (k : String) (l1 l2 : List (String × String)) :
    (l1 ++ l2).lookup k =
      match l1.lookup k with
      | some v => some v
      | none => l2.lookup k := by
  induction l1 with
  | nil => simp [List.lookup]
  | cons a tl ih =>
    obtain ⟨ka, va⟩ := a
    by_cases h : k = ka
    · simp [List.lookup, h]
    · have hbeq : (k == ka) = false := beq_eq_false_iff_ne.mpr h
      simp [List.lookup, hbeq, ih]

theorem inputPairs_cons (i : FormInput) (tl : List FormInput) :
    inputPairs (i :: tl) =
      (match i.nameAttr with
       | some n => if n ≠ "" then [(n, i.valueAttr.getD "")] else []
       | none => []) ++ inputPairs tl := by
  unfold inputPairs
  rw [List.filterMap_cons]
  cases hn : i.nameAttr with
  | none => simp
  | some n => by_cases he : n = "" <;> simp [he]

theorem hiddenFoldl (l : List FormInput) (d : String → Option String) (k : String) :
    (l.foldl hiddenStep d) k =
      match (inputPairs l).reverse.lookup k with
      | some v => some v
      | none => d k := by
  induction l generalizing d with
  | nil => simp [inputPairs, List.lookup]
  | cons i tl ih =>
    rw [List.foldl_cons, ih (hiddenStep d i)]
    cases hn : i.nameAttr with
    | none =>
      rw [inputPairs_cons, hn]
      simp [hiddenStep, hn]
    | some n =>
      by_cases he : n = ""
      · rw [inputPairs_cons, hn]
        simp [hiddenStep, hn, he]
      · rw [inputPairs_cons, hn]
        dsimp only
        rw [if_pos he, List.singleton_append, List.reverse_cons, lookupAppend]
        cases hl : (inputPairs tl).reverse.lookup k with
        | some v => rfl
        | none =>
          by_cases hk : k = n
          · have hbeq : (k == n) = true := beq_iff_eq.mpr hk
            simp [List.lookup, hbeq, hiddenStep, hn, he, dset, hk]
          · have hbeq : (k == n) = false := beq_eq_false_iff_ne.mpr hk
            simp [List.lookup, hbeq, hiddenStep, hn, he, dset, hk]


theorem inputNameContains_name {kw : String} {i : FormInput}
    (h : inputNameContains kw i = true) : ∃ n, i.nameAttr = some n := by
  unfold inputNameContains at h
  cases hn : i.nameAttr with
  | none => rw [hn] at h; cases h
  | some n => exact ⟨n, rfl⟩

theorem findUsername_of_loginCapable (form : HtmlForm)
    (h : loginCapable form = true) :
    ∃ i n, findUsernameField form = some i ∧ i.nameAttr = some n := by
  have hname : ∃ i ∈ form.inputs,
      (inputNameContains "user" i || inputNameContains "email" i ||
        inputNameContains "login" i) = true :=
    List.any_eq_true.mp (Bool.and_eq_true _ _ |>.mp h).1
  unfold findUsernameField
  cases hf1 : form.inputs.find? (inputNameContains "user") with
  | some i =>
    obtain ⟨n, hn⟩ := inputNameContains_name (List.find?_some hf1)
    exact ⟨i, n, by simp [Option.orElse], hn⟩
  | none =>
    cases hf2 : form.inputs.find? (inputNameContains "email") with
    | some i =>
      obtain ⟨n, hn⟩ := inputNameContains_name (List.find?_some hf2)
      exact ⟨i, n, by simp [Option.orElse, hf2], hn⟩
    | none =>
      cases hf3 : form.inputs.find? (inputNameContains "login") with
      | some i =>
        obtain ⟨n, hn⟩ := inputNameContains_name (List.find?_some hf3)
        exact ⟨i, n, by simp [Option.orElse, hf2, hf3], hn⟩
      | none =>
        exfalso
        obtain ⟨i0, hmem, hp⟩ := hname
        rcases Bool.or_eq_true _ _ |>.mp hp with hp12 | hp3
        · rcases Bool.or_eq_true _ _ |>.mp hp12 with hp1 | hp2
          · exact absurd hp1 (by simpa using List.find?_eq_none.mp hf1 i0 hmem)
          · exact absurd hp2 (by simpa using List.find?_eq_none.mp hf2 i0 hmem)
        · exact absurd hp3 (by simpa using List.find?_eq_none.mp hf3 i0 hmem)

/-- C7: for a login-capable form whose password input carries a name, the
submission happens, the resolved URL is the page URL when the action is
empty (the joined or absolute action otherwise), and the submitted body is
exactly the hidden fields overridden by the two credential fields and the
first usable submit pair; in particular a hidden csrf field survives into
the body alongside the credentials. -/
theorem claim_C7_submission (join : String → String → String) (form : HtmlForm)
    (formUrl u p : String)
    (hcap : loginCapable form = true)
    (hpw : ∃ i, findPasswordField form = some i ∧ i.nameAttr ≠ none) :
    ∃ url data, submitLoginForm join form formUrl u p = some (url, data) ∧
      (form.action = "" → url = formUrl) ∧
      (form.action ≠ "" → strStartsWith form.action "http" = false →
        url = join formUrl form.action) ∧
      (strStartsWith form.action "http" = true → url = form.action) ∧
      (∀ k, data k = expectedLookup form u p k) := by
  obtain ⟨iu, nu, hiu, hnu⟩ := findUsername_of_loginCapable form hcap
  obtain ⟨ip, hip, hipname⟩ := hpw
  obtain ⟨np, hnp⟩ := Option.ne_none_iff_exists'.mp hipname
  have hbuild : buildFormData form u p =
      some (match submitPair form with
        | some sp =>
          dset (dset (dset ((hiddenInputs form).foldl hiddenStep emptyFormData) nu u)
            np p) sp.1 sp.2
        | none =>
          dset (dset ((hiddenInputs form).foldl hiddenStep emptyFormData) nu u) np p) := by
    unfold buildFormData
    rw [hiu, hip]
    simp only [hnu, hnp]
  refine ⟨resolveAction join form formUrl,
    (match submitPair form with
      | some sp =>
        dset (dset (dset ((hiddenInputs form).foldl hiddenStep emptyFormData) nu u)
          np p) sp.1 sp.2
      | none =>
        dset (dset ((hiddenInputs form).foldl hiddenStep emptyFormData) nu u) np p),
    ?_, ?_, ?_, ?_, ?_⟩
  · unfold submitLoginForm
    rw [hbuild]
  · intro h
    unfold resolveAction
    rw [if_pos h]
  · intro h1 h2
    unfold resolveAction
    rw [if_neg h1, if_pos h2]
  · intro h
    have hne : form.action ≠ "" := by
      intro hc
      rw [hc] at h
      cases h
    unfold resolveAction
    rw [if_neg hne, if_neg (by simp [h])]
  · intro k
    have hd0k : ((hiddenInputs form).foldl hiddenStep emptyFormData) k =
        (inputPairs (hiddenInputs form)).reverse.lookup k := by
      rw [hiddenFoldl]
      cases (inputPairs (hiddenInputs form)).reverse.lookup k <;> rfl
    unfold expectedLookup
    simp only [hiu, hip, Option.some_bind, hnu, hnp]
    cases hsp : submitPair form with
    | none => simp [dset, hd0k]
    | some sp => simp [dset, hd0k]

def c7WitnessForm : HtmlForm :=
  ⟨"", [⟨some "hidden", some "csrf", none, some "abc"⟩,
        ⟨some "text", some "username", some "username", none⟩,
        ⟨some "password", some "password", none, none⟩]⟩

/-- Witness instantiating claim_C7_submission on a concrete form with an
empty action, a hidden csrf field and named credential fields. -/
theorem claim_C7_witness :
    ∃ url data,
      submitLoginForm (fun _ b => b) c7WitnessForm "https://portal.example/login"
        "user1" "pass1" = some (url, data) ∧
      url = "https://portal.example/login" ∧
      data "csrf" = some "abc" ∧
      data "username" = some "user1" ∧
      data "password" = some "pass1" := by
  obtain ⟨url, data, heq, hact, _h2, _h3, hlook⟩ :=
    claim_C7_submission (fun _ b => b) c7WitnessForm "https://portal.example/login"
      "user1" "pass1" (by decide)
      ⟨⟨some "password", some "password", none, none⟩, rfl, by decide⟩
  refine ⟨url, data, heq, hact rfl, ?_, ?_, ?_⟩
  · rw [hlook]; rfl
  · rw [hlook]; rfl
  · rw [hlook]; rfl

end SfoWeb
